import Mathlib

/-!
Verification of the adalight-rs screen-sampling pipeline.

This file gives a shallow embedding in Lean 4 of the parts of the
adalight-rs source that the verified properties talk about:

* `src/settings.rs` — the `Settings` aggregate, `DisplayConfiguration`,
  `OpcPixelRange` (with its Gaussian kernel construction), `OpcChannel`
  and `OpcServer`;
* `src/pixel_buffer.rs` — the `PixelBuffer` message framing for the
  Adalight serial wire format and the OPC / BOB wire formats;
* `src/gamma_correction.rs` — the `GammaLookup` table;
* `src/screen_samples.rs` — the per-sample-block color computation of
  `take_samples` (fade, minimum-brightness boost, BGRA packing) and the
  renderers `render_serial` / `render_channel`;
* `src/update_timer.rs` — the `TimerThread` throttle/resume/stop state
  transitions;
* `src/opc_pool.rs` — `OpcPool::send` bounds behaviour.

Modelling conventions:

* Machine integers (`u8`, `u16`, `u32`, `usize`) are modelled as `ℕ`
  with explicit `% 2^w` or masking where the source wraps or casts.
  `usize` subtraction that can underflow is modelled as the release-mode
  two's-complement wrap (`+ 2^64 - _` then `% 2^64`).
* `f64` arithmetic is modelled exactly: by `ℚ` where the source only
  performs field operations on sampled byte values (the color pipeline),
  and by `ℝ` where transcendental functions appear (`powf`, `exp`).
  `f64::EPSILON` is `2^(-52)`.
* Fallible operations (Rust panics from out-of-bounds indexing) are
  modelled with `Option`: `none` is a panic.
* OS and I/O resources (DXGI surfaces, TCP streams, serial handles,
  threads, mpsc channels) are external to the verified computations;
  where an I/O outcome feeds back into control flow it is an explicit
  `Bool`/`Option Bool` oracle field of the state.
-/

namespace Adalight

/-- `f64::EPSILON`, the machine epsilon of an IEEE-754 double, as a rational. -/
def epsilonF64 : ℚ := 1 / 2 ^ 52

/-- Wrap-around modulus of `usize` arithmetic (64-bit targets). -/
def usizeMod : ℕ := 2 ^ 64

/-! ## `src/settings.rs` — configuration data model -/

/-- `settings.rs` `DisplayConfiguration`: grid dimensions and the ordered
LED grid positions of one display (an `(x, y)` pair per LED, in strand
order). -/
structure DisplayConfiguration where
  horizontal_count : ℕ
  vertical_count : ℕ
  positions : List (ℕ × ℕ)

/-- `settings.rs` `OpcPixelRange`: a contiguous range of OPC pixels driven
by the display samples listed in `display_index`, with the derived sample
count and Gaussian blur kernel. -/
structure OpcPixelRange where
  pixel_count : ℕ
  display_index : List (List ℕ)
  sample_count : ℕ
  kernel_radius : ℕ
  kernel_weights : List ℝ

/-- `OpcPixelRange::get_sample_count`. -/
def OpcPixelRange.get_sample_count (r : OpcPixelRange) : ℕ := r.sample_count

/-- `OpcPixelRange::get_kernel_radius`. -/
def OpcPixelRange.get_kernel_radius (r : OpcPixelRange) : ℕ := r.kernel_radius

/-- `OpcPixelRange::get_kernel_weights`. -/
def OpcPixelRange.get_kernel_weights (r : OpcPixelRange) : List ℝ := r.kernel_weights

/-- The unnormalized Gaussian weight computed in the loop body of
`From<JsonOpcPixelRange>::from` (`settings.rs` lines 152-160) for loop
index `x`: `(-(diff * diff) / denominator).exp()` with
`diff = x - kernel_radius` and `denominator = radius² / 4.5` (σ = radius/3). -/
noncomputable def kernelWeight (radius x : ℕ) : ℝ :=
  Real.exp (-(((x : ℝ) - (radius : ℝ)) * ((x : ℝ) - (radius : ℝ))) /
    (((radius * radius : ℕ) : ℝ) / 4.5))

/-- The kernel-construction loop of `From<JsonOpcPixelRange>::from`
(`settings.rs` lines 145-160) after `n` iterations: the weights vector
(midpoint seeded to 1, both mirrored sides filled in per iteration) paired
with the running `total`.  `kernelLoop radius radius` is the state after
the full `for x in 0..kernel_radius` loop. -/
noncomputable def kernelLoop (radius : ℕ) : ℕ → List ℝ × ℝ
  | 0 => ((List.replicate (2 * radius + 1) (0 : ℝ)).set radius 1, 1)
  | n + 1 =>
    let acc := kernelLoop radius n
    let w := kernelWeight radius n
    (((acc.1.set n w).set (2 * radius + 1 - n - 1) w), acc.2 + 2 * w)

/-- `impl From<JsonOpcPixelRange> for OpcPixelRange` (`settings.rs` lines
125-172): derives `sample_count` from the entry counts of
`display_index`, and when `sample_count > 1 && pixel_count >= 3 * sample_count`
builds the normalized Gaussian kernel with
`kernel_radius = pixel_count / (2 * sample_count)`. -/
noncomputable def OpcPixelRange.fromJson (pixelCount : ℕ) (displayIndex : List (List ℕ)) :
    OpcPixelRange :=
  let sample_count := (displayIndex.map List.length).sum
  if sample_count > 1 ∧ pixelCount ≥ 3 * sample_count then
    let kernel_radius := pixelCount / (2 * sample_count)
    let result := kernelLoop kernel_radius kernel_radius
    { pixel_count := pixelCount
      display_index := displayIndex
      sample_count := sample_count
      kernel_radius := kernel_radius
      kernel_weights := result.1.map fun weight => weight / result.2 }
  else
    { pixel_count := pixelCount
      display_index := displayIndex
      sample_count := sample_count
      kernel_radius := 0
      kernel_weights := [] }

/-- `settings.rs` `OpcChannel`: a channel id with its ordered pixel ranges
and the derived total pixel count. -/
structure OpcChannel where
  channel : ℕ
  pixels : List OpcPixelRange
  total_pixel_count : ℕ

/-- `OpcChannel::get_total_pixel_count`. -/
def OpcChannel.get_total_pixel_count (c : OpcChannel) : ℕ := c.total_pixel_count

/-- `impl From<JsonOpcChannel> for OpcChannel` (`settings.rs` lines
200-220): converts each pixel range and accumulates `total_pixel_count`.
The JSON form of a range is its `(pixelCount, displayIndex)` pair. -/
noncomputable def OpcChannel.fromJson (channel : ℕ) (pixels : List (ℕ × List (List ℕ))) :
    OpcChannel :=
  let converted := pixels.map fun json => OpcPixelRange.fromJson json.1 json.2
  { channel := channel
    pixels := converted
    total_pixel_count := (converted.map OpcPixelRange.pixel_count).sum }

/-- `settings.rs` `OpcServer`. -/
structure OpcServer where
  host : String
  port : String
  alpha_channel : Bool
  channels : List OpcChannel

/-- `settings.rs` `Settings`, including the fields derived in
`impl From<JsonSettings> for Settings`. -/
structure Settings where
  min_brightness : ℕ
  fade : ℚ
  timeout : ℕ
  fps_max : ℕ
  throttle_timer : ℕ
  displays : List DisplayConfiguration
  servers : List OpcServer
  min_brightness_color : ℕ
  total_led_count : ℕ
  weight : ℚ
  delay : ℕ

/-- `impl From<JsonSettings> for Settings` (`settings.rs` lines 437-476):
copies the parsed fields and computes `min_brightness_color`
(each color channel `min_brightness / 3`, alpha `0xFF`),
`total_led_count` (sum of the position counts), `weight = 1 - fade` and
`delay = 1000 / fps_max`. -/
def Settings.fromJson (minBrightness : ℕ) (fade : ℚ) (timeout fpsMax throttleTimer : ℕ)
    (displays : List DisplayConfiguration) (servers : List OpcServer) : Settings :=
  let min_brightness_channel := (minBrightness / 3) &&& 0xFF
  { min_brightness := minBrightness
    fade := fade
    timeout := timeout
    fps_max := fpsMax
    throttle_timer := throttleTimer
    displays := displays
    servers := servers
    min_brightness_color :=
      (min_brightness_channel <<< 24) ||| (min_brightness_channel <<< 16) |||
        (min_brightness_channel <<< 8) ||| 0xFF
    total_led_count := (displays.map fun display => display.positions.length).sum
    weight := 1 - fade
    delay := 1000 / fpsMax }

/-- `Settings::get_min_brightness_color`. -/
def Settings.get_min_brightness_color (s : Settings) : ℕ := s.min_brightness_color

/-- `Settings::get_total_led_count`. -/
def Settings.get_total_led_count (s : Settings) : ℕ := s.total_led_count

/-- `Settings::get_weight`. -/
def Settings.get_weight (s : Settings) : ℚ := s.weight

/-- `Settings::get_delay`. -/
def Settings.get_delay (s : Settings) : ℕ := s.delay

/-! ## `src/pixel_buffer.rs` — message framing -/

/-- `pixel_buffer.rs` `PixelBuffer`: the byte vector (header followed by
payload), the alpha flag, the header bytes (`offset`) and the write
cursor (`position`).  Bytes are naturals `< 256`. -/
structure PixelBuffer where
  buffer : List ℕ
  alpha_channel : Bool
  offset : List ℕ
  position : ℕ
deriving DecidableEq

/-- `PixelBuffer::new_serial_buffer` (`pixel_buffer.rs` lines 17-43):
6-byte Adalight header `['A', 'd', 'a', hi, lo, hi ^ lo ^ 0x55]` where
`hi`/`lo` are the bytes of `(total_led_count - 1) as u16`, followed by a
zeroed payload of 3 bytes per LED.  The `usize` subtraction is modelled
with the release-profile wrap. -/
def PixelBuffer.new_serial_buffer (settings : Settings) : PixelBuffer :=
  let led_count := ((settings.get_total_led_count + (usizeMod - 1)) % usizeMod) % 2 ^ 16
  let led_count_high := (led_count &&& 0xFF00) >>> 8
  let led_count_low := led_count &&& 0xFF
  let led_count_checksum := led_count_high ^^^ led_count_low ^^^ 0x55
  let offset := [0x41, 0x64, 0x61, led_count_high, led_count_low, led_count_checksum]
  let position := offset.length
  let buffer_size := position + 3 * settings.get_total_led_count
  { buffer := offset ++ List.replicate (buffer_size - position) 0
    alpha_channel := false
    offset := offset
    position := position }

/-- `PixelBuffer::new_opc_buffer` (`pixel_buffer.rs` lines 47-67): 4-byte
OPC header `[channel, 0, len_hi, len_lo]` where the length field is
`(3 * total_pixel_count) as u16`, followed by a zeroed payload of 3 bytes
per OPC pixel. -/
def PixelBuffer.new_opc_buffer (opc_channel : OpcChannel) : PixelBuffer :=
  let opc_data_size := (3 * opc_channel.get_total_pixel_count) % 2 ^ 16
  let length_high := (opc_data_size &&& 0xFF00) >>> 8
  let length_low := opc_data_size &&& 0xFF
  let offset := [opc_channel.channel, 0, length_high, length_low]
  let position := offset.length
  let buffer_size := position + 3 * opc_channel.get_total_pixel_count
  { buffer := offset ++ List.replicate (buffer_size - position) 0
    alpha_channel := false
    offset := offset
    position := position }

/-- `PixelBuffer::new_bob_buffer` (`pixel_buffer.rs` lines 73-103): 6-byte
BOB header `[channel, 0xFF, len_hi, len_lo, 0x0B, 0x0B]`; the length
field is `(3 * total_pixel_count) as u16` and the last two bytes split
the system id `0xB0B`.  The payload is a zeroed 4 bytes per OPC pixel. -/
def PixelBuffer.new_bob_buffer (opc_channel : OpcChannel) : PixelBuffer :=
  let command := 255
  let opc_data_size := (3 * opc_channel.get_total_pixel_count) % 2 ^ 16
  let length_high := (opc_data_size &&& 0xFF00) >>> 8
  let length_low := opc_data_size &&& 0xFF
  let system_id := 0xB0B
  let system_id_high := (system_id &&& 0xFF00) >>> 8
  let system_id_low := system_id &&& 0xFF
  let offset := [opc_channel.channel, command, length_high, length_low,
    system_id_high, system_id_low]
  let position := offset.length
  let buffer_size := position + 4 * opc_channel.get_total_pixel_count
  { buffer := offset ++ List.replicate (buffer_size - position) 0
    alpha_channel := true
    offset := offset
    position := position }

/-- `PixelBuffer::add` (`pixel_buffer.rs` lines 106-118): writes the R, G,
B bytes of the RGBA word at the cursor (most significant byte first) and
the alpha byte as well when `alpha_channel` is set, advancing the cursor.
(The source's out-of-bounds panic is not modelled: `List.set` out of
range is a no-op; every use below writes inside the payload.) -/
def PixelBuffer.add (b : PixelBuffer) (rgba_pixel : ℕ) : PixelBuffer :=
  let buffer := b.buffer.set b.position ((rgba_pixel &&& 0xFF000000) >>> 24)
  let position := b.position + 1
  let buffer := buffer.set position ((rgba_pixel &&& 0xFF0000) >>> 16)
  let position := position + 1
  let buffer := buffer.set position ((rgba_pixel &&& 0xFF00) >>> 8)
  let position := position + 1
  if b.alpha_channel then
    { b with buffer := buffer.set position (rgba_pixel &&& 0xFF), position := position + 1 }
  else
    { b with buffer := buffer, position := position }

/-- `PixelBuffer::clear` (`pixel_buffer.rs` lines 121-128): when the
buffer extends past the header, reset the cursor to the end of the header
and zero the payload (`resize` down to the header then back up with `0`). -/
def PixelBuffer.clear (b : PixelBuffer) : PixelBuffer :=
  let buffer_size := b.buffer.length
  if buffer_size > b.offset.length then
    { b with
      position := b.offset.length
      buffer := b.buffer.take b.offset.length ++
        List.replicate (buffer_size - b.offset.length) 0 }
  else b

/-- `PixelBuffer::data`. -/
def PixelBuffer.data (b : PixelBuffer) : List ℕ := b.buffer

/-! ## `src/gamma_correction.rs` — gamma lookup table -/

/-- One channel entry of the gamma table (`gamma_correction.rs` lines
21-26): `(((index as f64) / 255.0).powf(2.8) * ceiling) as u8`, i.e. the
real power truncated toward zero with the saturating `as u8` cast. -/
noncomputable def gammaValue (ceiling index : ℕ) : ℕ :=
  min 255 ⌊(((index : ℝ) / 255) ^ (2.8 : ℝ)) * (ceiling : ℝ)⌋₊

/-- `gamma_correction.rs` `GammaLookup`: the table of per-channel
`(r, g, b)` gamma values. -/
structure GammaLookup where
  table : List (ℕ × ℕ × ℕ)

/-- `GammaLookup::new` (`gamma_correction.rs` lines 17-30): maps the
range `0_u8..255` — 255 entries, index 255 excluded — through the gamma
formula with ceilings 255/240/220. -/
noncomputable def GammaLookup.new : GammaLookup :=
  { table := (List.range 255).map fun index =>
      (gammaValue 255 index, gammaValue 240 index, gammaValue 220 index) }

/-- `GammaLookup::red` (`gamma_correction.rs` lines 33-35):
`self.table[usize::from(r)].r`; an out-of-range index is a Rust panic,
modelled as `none`. -/
def GammaLookup.red (g : GammaLookup) (r : ℕ) : Option ℕ :=
  (g.table[r]?).map fun values => values.1

/-- `GammaLookup::green` (`gamma_correction.rs` lines 38-40). -/
def GammaLookup.green (g : GammaLookup) (x : ℕ) : Option ℕ :=
  (g.table[x]?).map fun values => values.2.1

/-- `GammaLookup::blue` (`gamma_correction.rs` lines 43-45). -/
def GammaLookup.blue (g : GammaLookup) (b : ℕ) : Option ℕ :=
  (g.table[b]?).map fun values => values.2.2

/-! ## `src/screen_samples.rs` — the sampling and rendering engine

The DXGI/D3D11 capture resources (`factory`, `displays`, `start_tick`,
`frame_rate`) are OS handles outside the embedded computations; the
state below keeps the fields the verified operations read.  The entries
of the 16×16 `OffsetArray` sample grids are never consulted by the
renderers (only the per-display LED counts are, in `render_channel`), so
`pixel_offsets` keeps the shape `Vec<Vec<OffsetArray>>` with `Unit`
placeholders for the grids. -/

/-- The runtime state of `screen_samples.rs` `ScreenSamples` used by
`take_samples`, `render_serial` and `render_channel`. -/
structure ScreenSamples where
  parameters : Settings
  gamma : GammaLookup
  pixel_offsets : List (List Unit)
  previous_colors : List ℕ
  acquired_resources : Bool
  frame_count : ℕ

/-- `f64 as u32` for a nonnegative-or-negative finite value: truncation
toward zero with saturation (negative values floor to 0 through
`Nat.floor`), on the exact rational model of `f64`. -/
def f64AsU32 (x : ℚ) : ℕ := min (2 ^ 32 - 1) ⌊x⌋₊

/-- The per-sample-block color computation of `ScreenSamples::take_samples`
(`screen_samples.rs` lines 447-481): starting from the averaged channel
values `(r, g, b)` of the 16×16 sample block, apply the fade mix with the
previously stored color when `fade.abs() > EPSILON`, then the
minimum-brightness boost on `sum = r + b + g`. -/
def boostChannels (parameters : Settings) (r g b : ℚ) (previous_color : ℕ) : ℚ × ℚ × ℚ :=
  let faded :=
    if |parameters.fade| > epsilonF64 then
      (r * parameters.get_weight +
         (((previous_color &&& 0xFF000000) >>> 24 : ℕ) : ℚ) * parameters.fade,
       g * parameters.get_weight +
         (((previous_color &&& 0xFF0000) >>> 16 : ℕ) : ℚ) * parameters.fade,
       b * parameters.get_weight +
         (((previous_color &&& 0xFF00) >>> 8 : ℕ) : ℚ) * parameters.fade)
    else (r, g, b)
  let r := faded.1
  let g := faded.2.1
  let b := faded.2.2
  let min_brightness : ℚ := (parameters.min_brightness : ℚ)
  let sum := r + b + g
  if sum < min_brightness then
    if |sum| < epsilonF64 then
      let value := sum / 3
      (value, value, value)
    else
      let deficit := min_brightness - sum
      let sum_2 := sum * 2
      (deficit * (sum - r) / sum_2, deficit * (sum - g) / sum_2, deficit * (sum - b) / sum_2)
  else (r, g, b)

/-- The BGRA packing at the end of the `take_samples` loop body
(`screen_samples.rs` lines 483-489): each boosted channel cast with
`as u32`, masked to a byte and shifted into place, with alpha `0xFF`. -/
def takeSampleColor (parameters : Settings) (r g b : ℚ) (previous_color : ℕ) : ℕ :=
  let boosted := boostChannels parameters r g b previous_color
  ((f64AsU32 boosted.1 &&& 0xFF) <<< 24) ||| ((f64AsU32 boosted.2.1 &&& 0xFF) <<< 16) |||
    ((f64AsU32 boosted.2.2 &&& 0xFF) <<< 8) ||| 0xFF

/-- The per-pixel body of `ScreenSamples::render_serial`
(`screen_samples.rs` lines 507-521): gamma-correct each channel with the
per-channel tables and repack as BGRA with alpha `0xFF`; a failed table
lookup is the source's out-of-bounds panic. -/
def gammaCorrectPixel (gamma : GammaLookup) (pixel : ℕ) : Option ℕ :=
  match gamma.red ((pixel &&& 0xFF000000) >>> 24),
      gamma.green ((pixel &&& 0xFF0000) >>> 16),
      gamma.blue ((pixel &&& 0xFF00) >>> 8) with
  | some r, some g, some b =>
    some (((r &&& 0xFF) <<< 24) ||| ((g &&& 0xFF) <<< 16) ||| ((b &&& 0xFF) <<< 8) ||| 0xFF)
  | _, _, _ => none

/-- The `for pixel in self.previous_colors.iter()` loop of
`render_serial`, in strand order. -/
def renderSerialLoop (gamma : GammaLookup) : List ℕ → PixelBuffer → Option PixelBuffer
  | [], serial => some serial
  | pixel :: rest, serial =>
    match gammaCorrectPixel gamma pixel with
    | none => none
    | some corrected => renderSerialLoop gamma rest (serial.add corrected)

/-- `ScreenSamples::render_serial` (`screen_samples.rs` lines 500-525):
clear the buffer, bail out with `false` when resources were not
acquired, otherwise write every gamma-corrected color and return `true`. -/
def ScreenSamples.render_serial (s : ScreenSamples) (serial : PixelBuffer) :
    Option (Bool × PixelBuffer) :=
  let serial := serial.clear
  if s.acquired_resources = false then some (false, serial)
  else (renderSerialLoop s.gamma s.previous_colors serial).map fun b => (true, b)

/-- The `loop { ... }` of `render_channel` (`screen_samples.rs` lines
550-560) that walks `display_index` to locate the display holding sample
`pixel_offset`, accumulating a base index into `previous_colors` from
the per-display LED counts.  `pixel_offset -= range.display_index.len()`
is `usize` arithmetic and wraps on underflow (release profile); the
lengths involved are vector lengths, hence `< 2^64`. -/
def sampleLoopGo (display_index : List (List ℕ)) (pixel_offsets : List (List Unit)) :
    ℕ → ℕ → ℕ → ℕ → ℕ × ℕ × ℕ
  | 0, display, pixel_offset, previous_color_index =>
    (display, pixel_offset, previous_color_index)
  | fuel + 1, display, pixel_offset, previous_color_index =>
    if display ≥ display_index.length ∨ pixel_offset < (display_index.getD display []).length then
      (display, pixel_offset, previous_color_index)
    else
      sampleLoopGo display_index pixel_offsets fuel (display + 1)
        ((pixel_offset + (usizeMod - display_index.length)) % usizeMod)
        (previous_color_index + (pixel_offsets.getD display []).length)

/-- The walk itself.  Each iteration increments `display` and the loop
breaks as soon as `display ≥ display_index.len()`, so starting from
`display = 0` it performs at most `display_index.length` iterations;
the fuel `display_index.length + 1` is never exhausted. -/
def sampleLoop (display_index : List (List ℕ)) (pixel_offsets : List (List Unit))
    (display pixel_offset previous_color_index : ℕ) : ℕ × ℕ × ℕ :=
  sampleLoopGo display_index pixel_offsets (display_index.length + 1)
    display pixel_offset previous_color_index

/-- The sampled-pixel computation of `render_channel` for one pixel index
(`screen_samples.rs` lines 544-567): `pixel_offset` starts at
`pixel_index * sample_count / pixel_count`; after the walk, the resolved
display and offset select an entry of `previous_colors`, defaulting to
the color `0x00000000` when no display is found.  An out-of-range
`previous_colors` index is the source's panic (`none`). -/
def ScreenSamples.samplePixel (s : ScreenSamples) (range : OpcPixelRange)
    (pixel_index : ℕ) : Option ℕ :=
  let pixel_offset := pixel_index * range.get_sample_count / range.pixel_count
  let walked := sampleLoop range.display_index s.pixel_offsets 0 pixel_offset 0
  let display := walked.1
  let pixel_offset := walked.2.1
  let previous_color_index := walked.2.2
  if display < range.display_index.length then
    s.previous_colors[previous_color_index + (range.display_index.getD display []).getD pixel_offset 0]?
  else
    some 0

/-- The `sampled_pixels` vector of `render_channel` for one range, in
pixel order. -/
def ScreenSamples.sampledPixels (s : ScreenSamples) (range : OpcPixelRange) :
    Option (List ℕ) :=
  let rec build : List ℕ → Option (List ℕ)
    | [] => some []
    | pixel_index :: rest =>
      match s.samplePixel range pixel_index, build rest with
      | some color, some colors => some (color :: colors)
      | _, _ => none
  build (List.range range.pixel_count)

/-- `(x as u32)` truncation for the real-valued kernel accumulators. -/
noncomputable def f64AsU32R (x : ℝ) : ℕ := min (2 ^ 32 - 1) ⌊x⌋₊

/-- The smoothing stage of `render_channel` for one pixel
(`screen_samples.rs` lines 571-597): when
`pixel_index >= kernel_radius && pixel_index + kernel_radius < pixel_count`,
replace the sampled color by the kernel-weighted channel sums (clamped to
a byte per channel, alpha included); otherwise keep the sampled color. -/
noncomputable def smoothPixel (range : OpcPixelRange) (sampled_pixels : List ℕ)
    (pixel_index : ℕ) : ℕ :=
  let kernel_radius := range.get_kernel_radius
  let pixel_color := sampled_pixels.getD pixel_index 0
  if pixel_index ≥ kernel_radius ∧ pixel_index + kernel_radius < range.pixel_count then
    let acc := range.get_kernel_weights.enum.foldl
      (fun (acc : ℝ × ℝ × ℝ × ℝ) xw =>
        let sample := sampled_pixels.getD (xw.1 + pixel_index - kernel_radius) 0
        (acc.1 + (((sample &&& 0xFF000000) >>> 24 : ℕ) : ℝ) * xw.2,
         acc.2.1 + (((sample &&& 0xFF0000) >>> 16 : ℕ) : ℝ) * xw.2,
         acc.2.2.1 + (((sample &&& 0xFF00) >>> 8 : ℕ) : ℝ) * xw.2,
         acc.2.2.2 + (((sample &&& 0xFF : ℕ)) : ℝ) * xw.2))
      (0, 0, 0, 0)
    (min (f64AsU32R acc.1) 255) <<< 24 ||| (min (f64AsU32R acc.2.1) 255) <<< 16 |||
      (min (f64AsU32R acc.2.2.1) 255) <<< 8 ||| min (f64AsU32R acc.2.2.2) 255
  else pixel_color

/-- One `for range in channel.pixels.iter()` iteration of
`render_channel`: build the sampled vector, then add every
(possibly smoothed) pixel to the buffer. -/
noncomputable def renderChannelRange (s : ScreenSamples) (range : OpcPixelRange)
    (pixels : PixelBuffer) : Option PixelBuffer :=
  match s.sampledPixels range with
  | none => none
  | some sampled =>
    some ((List.range range.pixel_count).foldl
      (fun b pixel_index => b.add (smoothPixel range sampled pixel_index)) pixels)

/-- The range loop of `render_channel`, in configuration order. -/
noncomputable def renderChannelRanges (s : ScreenSamples) :
    List OpcPixelRange → PixelBuffer → Option PixelBuffer
  | [], pixels => some pixels
  | range :: rest, pixels =>
    match renderChannelRange s range pixels with
    | none => none
    | some pixels => renderChannelRanges s rest pixels

/-- `ScreenSamples::render_channel` (`screen_samples.rs` lines 531-601):
clear the buffer, bail out with `false` when resources were not
acquired, otherwise render every pixel range of the channel and return
`true`. -/
noncomputable def ScreenSamples.render_channel (s : ScreenSamples) (channel : OpcChannel)
    (pixels : PixelBuffer) : Option (Bool × PixelBuffer) :=
  let pixels := pixels.clear
  if s.acquired_resources = false then some (false, pixels)
  else (renderChannelRanges s channel.pixels pixels).map fun b => (true, b)

/-! ## `src/update_timer.rs` — the timer state machine -/

/-- `update_timer.rs` `TimerThread` state: the throttled/stopped flags
behind the mutex, the two interval lengths, and the presence of the
spawned thread's `JoinHandle` (`Option Unit` — the handle itself is an
OS resource). The mpsc sender is external I/O. -/
structure TimerThread where
  thread : Option Unit
  throttled : Bool
  stopped : Bool
  throttle_timer : ℕ
  delay : ℕ
deriving DecidableEq

/-- `TimerThread::new` (`update_timer.rs` lines 50-59). -/
def TimerThread.new (parameters : Settings) : TimerThread :=
  { thread := none
    throttled := false
    stopped := false
    throttle_timer := parameters.throttle_timer
    delay := parameters.get_delay }

/-- `TimerThread::stop` (`update_timer.rs` lines 102-118): the returned
flag is `!timer.stopped` sampled before setting `stopped = true`; the
thread handle is taken (and joined — external). -/
def TimerThread.stop (t : TimerThread) : Bool × TimerThread :=
  (!t.stopped, { t with stopped := true, thread := none })

/-- `TimerThread::throttle` (`update_timer.rs` lines 122-127): sets
`throttled = true` and returns `!throttled && !stopped` for the prior
`throttled`. -/
def TimerThread.throttle (t : TimerThread) : Bool × TimerThread :=
  let throttled := t.throttled
  (!throttled && !t.stopped, { t with throttled := true })

/-- `TimerThread::resume` (`update_timer.rs` lines 131-136): sets
`throttled = false` and returns `throttled && !stopped` for the prior
`throttled`. -/
def TimerThread.resume (t : TimerThread) : Bool × TimerThread :=
  let throttled := t.throttled
  (throttled && !t.stopped, { t with throttled := false })

/-! ## `src/opc_pool.rs` — best-effort OPC connections -/

/-- `opc_pool.rs` `OpcConnection` state: `stream` is `some writeOk` for a
held TCP stream whose next `write_all` outcome is the oracle `writeOk`,
and `none` when no stream is held. -/
structure OpcConnection where
  stream : Option Bool
deriving DecidableEq

/-- `OpcConnection::send` (`opc_pool.rs` lines 35-46): `false` without a
stream; with a stream, a failed write closes (drops) the stream. -/
def OpcConnection.send (c : OpcConnection) : Bool × OpcConnection :=
  match c.stream with
  | some writeOk => if writeOk then (true, c) else (false, { stream := none })
  | none => (false, c)

/-- `opc_pool.rs` `OpcPool`: the vector of per-server connections
(empty until `open` is first called). -/
structure OpcPool where
  connections : List OpcConnection
deriving DecidableEq

/-- `OpcPool::new` (`opc_pool.rs` lines 65-70): no connections; the
`parameters` reference only feeds `open`. -/
def OpcPool.new (_parameters : Settings) : OpcPool :=
  { connections := [] }

/-- `OpcPool::send` (`opc_pool.rs` lines 95-97):
`server < self.connections.len() && self.connections[server].send(pixels)` —
the short-circuit `&&` never indexes when `server` is out of range. -/
def OpcPool.send (pool : OpcPool) (server : ℕ) : Bool × OpcPool :=
  if h : server < pool.connections.length then
    let result := (pool.connections.get ⟨server, h⟩).send
    (result.1, { connections := pool.connections.set server result.2 })
  else
    (false, pool)

/-! ## Derived helpers and concrete fixtures -/

/-- The gamma corrections of a color list, in order; `none` as soon as
one lookup panics.  `renderSerialLoop` is exactly adding these words in
order (see `renderSerialLoop_eq_gammaCorrectAll`). -/
def gammaCorrectAll (gamma : GammaLookup) : List ℕ → Option (List ℕ)
  | [] => some []
  | pixel :: rest =>
    match gammaCorrectPixel gamma pixel, gammaCorrectAll gamma rest with
    | some corrected, some others => some (corrected :: others)
    | _, _ => none

/-- The LED strand of the sample configuration shipped with the source
(`settings.rs` test `parse_settings`): 24 positions on a 10×5 grid. -/
def positions24 : List (ℕ × ℕ) :=
  [(3, 4), (2, 4), (1, 4),
   (0, 4), (0, 3), (0, 2), (0, 1),
   (0, 0), (1, 0), (2, 0), (3, 0), (4, 0),
   (5, 0), (6, 0), (7, 0), (8, 0), (9, 0),
   (9, 1), (9, 2), (9, 3), (9, 4),
   (8, 4), (7, 4), (6, 4)]

/-- The sample configuration's `Settings` (one display, 24 LEDs,
`minBrightness` 64, `fade` 0, `timeout` 5000, `fpsMax` 30,
`throttleTimer` 3000). -/
def settings24 : Settings :=
  Settings.fromJson 64 0 5000 30 3000
    [{ horizontal_count := 10, vertical_count := 5, positions := positions24 }] []

/-- A `Settings` value with the given `minBrightness`, `fade` 0 and no
displays or servers; only the fields read by the color pipeline matter. -/
def plainSettings (minBrightness : ℕ) : Settings :=
  Settings.fromJson minBrightness 0 5000 30 3000 [] []

/-- The OPC channel of the sample configuration (`settings.rs` test
`parse_opc_channel`): channel 2 with ranges of 64, 4, 19, and 29 pixels,
116 OPC pixels in total. -/
noncomputable def channel116 : OpcChannel :=
  OpcChannel.fromJson 2
    [(64, [[16, 15, 14, 13, 12, 11, 10, 9]]),
     (4, []),
     (19, [[8, 7]]),
     (29, [[7, 6, 5, 4, 3]])]

/-- A pixel range whose `sample_count` is 1, so that the kernel guard in
`OpcPixelRange::from` fails and `kernel_radius = 0` with empty weights:
one OPC pixel driven by LED 0 of display 0. -/
noncomputable def rangeNoKernel : OpcPixelRange := OpcPixelRange.fromJson 1 [[0]]

/-- The channel holding only `rangeNoKernel`. -/
noncomputable def channelNoKernel : OpcChannel := OpcChannel.fromJson 1 [(1, [[0]])]

/-- A `ScreenSamples` state with resources acquired, a single display
with a single LED, and a stored (nonzero) color `0x11223344`. -/
def samplesOneLed : ScreenSamples :=
  { parameters := plainSettings 64
    gamma := { table := [] }
    pixel_offsets := [[()]]
    previous_colors := [0x11223344]
    acquired_resources := true
    frame_count := 0 }

/-- A `ScreenSamples` state for exercising `render_serial`: one stored
color `0x00000000` and a one-entry gamma table sending channel value 0
to `(7, 8, 9)`. -/
def samplesGamma : ScreenSamples :=
  { parameters := plainSettings 64
    gamma := { table := [(7, 8, 9)] }
    pixel_offsets := [[()]]
    previous_colors := [0]
    acquired_resources := true
    frame_count := 0 }

/-- A small `PixelBuffer` with a 2-byte header and a 3-byte payload. -/
def bufferSmall : PixelBuffer :=
  { buffer := [5, 6, 1, 2, 3], alpha_channel := false, offset := [5, 6], position := 2 }

/-! ## Helper lemmas -/

lemma and_mask_ff (x : ℕ) : x &&& 0xFF = x % 2 ^ 8 := by
  have h := Nat.and_pow_two_sub_one_eq_mod x 8
  norm_num at h
  exact h

lemma and_mask_ff00_shr (x : ℕ) : (x &&& 0xFF00) >>> 8 = x / 2 ^ 8 % 2 ^ 8 := by
  apply Nat.eq_of_testBit_eq
  intro i
  rw [← Nat.shiftRight_eq_div_pow]
  rw [show (0xFF00 : ℕ) = 255 <<< 8 from by simp [Nat.shiftLeft_eq]]
  rw [show (255 : ℕ) = 2 ^ 8 - 1 from by norm_num]
  simp only [Nat.testBit_shiftRight, Nat.testBit_and, Nat.testBit_mod_two_pow,
    Nat.testBit_shiftLeft, Nat.testBit_two_pow_sub_one]
  by_cases hi : i < 8 <;>
    simp [hi, show 8 ≤ 8 + i from by omega, show 8 + i - 8 = i from by omega]

lemma and_mask_ff00_shr_of_lt (x : ℕ) (h : x < 2 ^ 16) :
    (x &&& 0xFF00) >>> 8 = x / 2 ^ 8 := by
  rw [and_mask_ff00_shr]
  exact Nat.mod_eq_of_lt (Nat.div_lt_of_lt_mul (by omega))

lemma take_six_of_append (a b c d e f : ℕ) (l : List ℕ) :
    ([a, b, c, d, e, f] ++ l).take 6 = [a, b, c, d, e, f] := by
  simp

lemma or_ff_and_ff (x : ℕ) : (x ||| 0xFF) &&& 0xFF = 0xFF := by
  apply Nat.eq_of_testBit_eq
  intro i
  rw [show (0xFF : ℕ) = 2 ^ 8 - 1 from by norm_num]
  simp only [Nat.testBit_and, Nat.testBit_or, Nat.testBit_two_pow_sub_one]
  by_cases hi : i < 8 <;> simp [hi]

/-! ## The claims -/

/-- C8: `TimerThread::throttle` sets `throttled` and returns `true` iff it
was previously clear and the timer is not stopped; `resume` sets it back
and returns `true` iff it was previously set and the timer is not
stopped; both are idempotent (a second consecutive call returns `false`
and leaves the state unchanged), and the second of two consecutive
`stop` calls returns `false`. -/
theorem timer_throttle_resume_stop (t : TimerThread) :
    (t.throttle.1 = true ↔ t.throttled = false ∧ t.stopped = false) ∧
    t.throttle.2.throttled = true ∧
    (t.resume.1 = true ↔ t.throttled = true ∧ t.stopped = false) ∧
    t.resume.2.throttled = false ∧
    t.throttle.2.throttle.1 = false ∧ t.throttle.2.throttle.2 = t.throttle.2 ∧
    t.resume.2.resume.1 = false ∧ t.resume.2.resume.2 = t.resume.2 ∧
    t.stop.2.stop.1 = false := by
  obtain ⟨thread, throttled, stopped, throttle_timer, delay⟩ := t
  cases throttled <;> cases stopped <;>
    simp [TimerThread.throttle, TimerThread.resume, TimerThread.stop]

/-- C10: `OpcPool::send` with an index at or beyond the number of held
connections returns `false` and leaves the pool untouched; in
particular every index does so on a freshly created pool, whose
connection list is empty. -/
theorem opc_pool_send_out_of_range (pool : OpcPool) (server : ℕ)
    (h : pool.connections.length ≤ server) :
    pool.send server = (false, pool) ∧
    ∀ (parameters : Settings) (i : ℕ),
      (OpcPool.new parameters).send i = (false, OpcPool.new parameters) := by
  constructor
  · unfold OpcPool.send
    rw [dif_neg (by omega)]
  · intro parameters i
    unfold OpcPool.send OpcPool.new
    rw [dif_neg (by simp)]

/-- Witness for C10 at the empty pool and index 0. -/
theorem opc_pool_send_out_of_range_witness :
    OpcPool.send { connections := [] } 0 = (false, { connections := [] }) :=
  (opc_pool_send_out_of_range { connections := [] } 0 (by decide)).1

/-- C9: `GammaLookup::new` builds exactly 255 entries; every index
`i < 255` looks up the truncated gamma curve with per-channel ceilings
255/240/220, and index 255 runs past the end of the table (a runtime
panic, `none` here). -/
theorem gamma_lookup_255_entries :
    GammaLookup.new.table.length = 255 ∧
    (∀ i, i < 255 →
      GammaLookup.new.red i = some (gammaValue 255 i) ∧
      GammaLookup.new.green i = some (gammaValue 240 i) ∧
      GammaLookup.new.blue i = some (gammaValue 220 i)) ∧
    GammaLookup.new.red 255 = none ∧
    GammaLookup.new.green 255 = none ∧
    GammaLookup.new.blue 255 = none := by
  refine ⟨by simp [GammaLookup.new], fun i hi => ?_, ?_, ?_, ?_⟩ <;>
    simp [GammaLookup.new, GammaLookup.red, GammaLookup.green, GammaLookup.blue,
      List.getElem?_map, List.getElem?_range, *]

/-- C4: the serial buffer starts with the Adalight header
`['A', 'd', 'a', hi, lo, hi ^^^ lo ^^^ 0x55]` where `hi`/`lo` are the
big-endian bytes of `(total_led_count - 1) as u16`, and the whole buffer
is `6 + 3 * total_led_count` bytes; for the 24-LED sample configuration
the header is `[0x41, 0x64, 0x61, 0x00, 0x17, 0x42]` and the length 78. -/
theorem new_serial_buffer_spec (s : Settings) (h1 : 1 ≤ s.get_total_led_count)
    (h2 : s.get_total_led_count ≤ 2 ^ 64) :
    (PixelBuffer.new_serial_buffer s).data.take 6 =
      [0x41, 0x64, 0x61,
        (s.get_total_led_count - 1) % 2 ^ 16 / 2 ^ 8,
        (s.get_total_led_count - 1) % 2 ^ 16 % 2 ^ 8,
        ((s.get_total_led_count - 1) % 2 ^ 16 / 2 ^ 8) ^^^
          ((s.get_total_led_count - 1) % 2 ^ 16 % 2 ^ 8) ^^^ 0x55] ∧
    (PixelBuffer.new_serial_buffer s).data.length = 6 + 3 * s.get_total_led_count ∧
    (PixelBuffer.new_serial_buffer settings24).data.take 6 =
      [0x41, 0x64, 0x61, 0x00, 0x17, 0x42] ∧
    (PixelBuffer.new_serial_buffer settings24).data.length = 78 := by
  have hwrap : ((s.get_total_led_count + (usizeMod - 1)) % usizeMod) % 2 ^ 16 =
      (s.get_total_led_count - 1) % 2 ^ 16 := by
    unfold usizeMod at *
    omega
  have hlt : (s.get_total_led_count - 1) % 2 ^ 16 < 2 ^ 16 := Nat.mod_lt _ (by norm_num)
  refine ⟨?_, ?_, by decide, by decide⟩
  · unfold PixelBuffer.new_serial_buffer PixelBuffer.data
    simp only [hwrap]
    rw [and_mask_ff00_shr_of_lt _ hlt, and_mask_ff]
    exact take_six_of_append _ _ _ _ _ _ _
  · unfold PixelBuffer.new_serial_buffer PixelBuffer.data
    simp [List.length_append, List.length_replicate]
    omega

/-- Witness for C4 at the 24-LED sample configuration. -/
theorem new_serial_buffer_spec_witness :
    1 ≤ settings24.get_total_led_count ∧
    (PixelBuffer.new_serial_buffer settings24).data.take 6 =
      [0x41, 0x64, 0x61, 0x00, 0x17, 0x42] :=
  ⟨by decide, (new_serial_buffer_spec settings24 (by decide) (by decide)).2.2.1⟩

lemma set_four_eq_take_append_drop (l : List ℕ) (i a b c d : ℕ) (h : i + 4 ≤ l.length) :
    (((l.set i a).set (i + 1) b).set (i + 2) c).set (i + 3) d =
      l.take i ++ [a, b, c, d] ++ l.drop (i + 4) := by
  induction l generalizing i with
  | nil => simp at h
  | cons x t ih =>
    cases i with
    | zero =>
      obtain ⟨y, z, w, t1, rfl⟩ : ∃ y z w t1, t = y :: z :: w :: t1 := by
        rcases t with _ | ⟨y, t⟩
        · simp at h
        rcases t with _ | ⟨z, t⟩
        · simp at h
        rcases t with _ | ⟨w, t⟩
        · simp at h
        exact ⟨_, _, _, _, rfl⟩
      simp [List.set]
    | succ n =>
      have ht : n + 4 ≤ t.length := by
        simp only [List.length_cons] at h
        omega
      simp only [show ∀ m : ℕ, n + 1 + m = (n + m) + 1 from fun m => by omega, List.set_cons_succ]
      rw [ih n ht]
      simp [List.take_succ_cons, List.drop_succ_cons]

/-- C2 (code slip in `take_samples`): with an all-black averaged frame
and `fade = 0`, the stored word is `0x000000FF` for every
`min_brightness` — each color channel is `sum / 3` with `sum = 0`,
i.e. 0, not `min_brightness / 3` (which is 21 for `min_brightness = 64`);
only the alpha byte is `0xFF`. -/
theorem take_samples_all_black (minBrightness previous_color : ℕ) :
    takeSampleColor (plainSettings minBrightness) 0 0 0 previous_color = 0x000000FF ∧
    (0x000000FF &&& 0xFF000000) >>> 24 = 0 ∧
    (0x000000FF &&& 0xFF0000) >>> 16 = 0 ∧
    (0x000000FF &&& 0xFF00) >>> 8 = 0 ∧
    (64 : ℕ) / 3 = 21 := by
  have hfade : ¬ |(plainSettings minBrightness).fade| > epsilonF64 := by
    show ¬ |(0 : ℚ)| > epsilonF64
    norm_num [epsilonF64]
  have hboost : boostChannels (plainSettings minBrightness) 0 0 0 previous_color =
      (0, 0, 0) := by
    unfold boostChannels
    rw [if_neg hfade]
    norm_num [epsilonF64]
  refine ⟨?_, by decide, by decide, by decide, by decide⟩
  unfold takeSampleColor
  rw [hboost]
  unfold f64AsU32
  norm_num

/-- C3: when `0 < S < min_brightness` with `S = r + b + g` at least
epsilon away from 0 (and fade disabled), each channel `X` becomes
`deficit * (S - X) / (2 * S)` with `deficit = min_brightness - S`; for
`min_brightness = 64`, input `(10, 0, 0)` and fade 0 the stored word is
`(0 <<< 24) ||| (27 <<< 16) ||| (27 <<< 8) ||| 0xFF`. -/
theorem min_brightness_lift (parameters : Settings) (r g b : ℚ) (previous_color : ℕ)
    (hfade : ¬ |parameters.fade| > epsilonF64)
    (hzero : ¬ |r + b + g| < epsilonF64)
    (hlow : r + b + g < (parameters.min_brightness : ℚ)) :
    boostChannels parameters r g b previous_color =
      (((parameters.min_brightness : ℚ) - (r + b + g)) * ((r + b + g) - r) /
          (2 * (r + b + g)),
       ((parameters.min_brightness : ℚ) - (r + b + g)) * ((r + b + g) - g) /
          (2 * (r + b + g)),
       ((parameters.min_brightness : ℚ) - (r + b + g)) * ((r + b + g) - b) /
          (2 * (r + b + g))) ∧
    takeSampleColor (plainSettings 64) 10 0 0 0 =
      (0 <<< 24) ||| (27 <<< 16) ||| (27 <<< 8) ||| 0xFF := by
  constructor
  · unfold boostChannels
    rw [if_neg hfade]
    simp only
    rw [if_pos hlow, if_neg hzero]
    rw [mul_comm (r + b + g) 2]
  · have hb : boostChannels (plainSettings 64) 10 0 0 0 = (0, 27, 27) := by
      unfold boostChannels
      norm_num [plainSettings, Settings.fromJson, epsilonF64]
    unfold takeSampleColor
    rw [hb]
    unfold f64AsU32
    norm_num
    decide

/-- Witness for C3 at `min_brightness = 64`, input `(10, 0, 0)`, fade 0. -/
theorem min_brightness_lift_witness :
    boostChannels (plainSettings 64) 10 0 0 0 =
      ((((plainSettings 64).min_brightness : ℚ) - (10 + 0 + 0)) * ((10 + 0 + 0) - 10) /
          (2 * (10 + 0 + 0)),
       (((plainSettings 64).min_brightness : ℚ) - (10 + 0 + 0)) * ((10 + 0 + 0) - 0) /
          (2 * (10 + 0 + 0)),
       (((plainSettings 64).min_brightness : ℚ) - (10 + 0 + 0)) * ((10 + 0 + 0) - 0) /
          (2 * (10 + 0 + 0))) :=
  (min_brightness_lift (plainSettings 64) 10 0 0 0
    (by norm_num [plainSettings, Settings.fromJson, epsilonF64])
    (by norm_num [epsilonF64])
    (by norm_num [plainSettings, Settings.fromJson])).1

set_option maxRecDepth 4000 in
/-- C5: the BOB buffer header is
`[channel, 0xFF, len_hi, len_lo, 0x0B, 0x0B]` with the length field the
big-endian bytes of `(3 * total_pixel_count) as u16` (not
`4 * total_pixel_count`), the buffer is `6 + 4 * total_pixel_count`
bytes, and (alpha enabled) `add` writes 4 payload bytes `R, G, B, A` per
pixel; for channel 2 with 116 pixels the header is
`[0x02, 0xFF, 0x01, 0x5C, 0x0B, 0x0B]` and the length 470. -/
theorem new_bob_buffer_spec (c : OpcChannel) :
    (PixelBuffer.new_bob_buffer c).data.take 6 =
      [c.channel, 0xFF,
        3 * c.get_total_pixel_count % 2 ^ 16 / 2 ^ 8,
        3 * c.get_total_pixel_count % 2 ^ 16 % 2 ^ 8, 0x0B, 0x0B] ∧
    (PixelBuffer.new_bob_buffer c).data.length = 6 + 4 * c.get_total_pixel_count ∧
    (PixelBuffer.new_bob_buffer c).alpha_channel = true ∧
    (∀ (pb : PixelBuffer) (pixel : ℕ), pb.alpha_channel = true →
      pb.position + 4 ≤ pb.buffer.length →
      (pb.add pixel).position = pb.position + 4 ∧
      (pb.add pixel).buffer = pb.buffer.take pb.position ++
        [(pixel &&& 0xFF000000) >>> 24, (pixel &&& 0xFF0000) >>> 16,
         (pixel &&& 0xFF00) >>> 8, pixel &&& 0xFF] ++
        pb.buffer.drop (pb.position + 4)) ∧
    (PixelBuffer.new_bob_buffer channel116).data.take 6 =
      [0x02, 0xFF, 0x01, 0x5C, 0x0B, 0x0B] ∧
    (PixelBuffer.new_bob_buffer channel116).data.length = 470 := by
  have hlt : 3 * c.get_total_pixel_count % 2 ^ 16 < 2 ^ 16 := Nat.mod_lt _ (by norm_num)
  refine ⟨?_, ?_, rfl, ?_, by decide, by decide⟩
  · unfold PixelBuffer.new_bob_buffer PixelBuffer.data
    simp only
    rw [and_mask_ff00_shr_of_lt _ hlt, and_mask_ff]
    rw [show ((0xB0B : ℕ) &&& 0xFF00) >>> 8 = 0x0B from by decide,
      show ((0xB0B : ℕ) &&& 0xFF : ℕ) = 0x0B from by decide]
    exact take_six_of_append _ _ _ _ _ _ _
  · unfold PixelBuffer.new_bob_buffer PixelBuffer.data
    simp [List.length_append, List.length_replicate]
    omega
  · intro pb pixel halpha hlen
    unfold PixelBuffer.add
    simp only [halpha, if_true]
    refine ⟨trivial, ?_⟩
    have h4 := set_four_eq_take_append_drop pb.buffer pb.position
      ((pixel &&& 0xFF000000) >>> 24) ((pixel &&& 0xFF0000) >>> 16)
      ((pixel &&& 0xFF00) >>> 8) (pixel &&& 0xFF) hlen
    simpa using h4

set_option maxRecDepth 4000 in
/-- Witness for C5: the 116-pixel BOB buffer accepts a 4-byte pixel at
the start of its payload. -/
theorem new_bob_buffer_spec_witness :
    (PixelBuffer.new_bob_buffer channel116).alpha_channel = true ∧
    ((PixelBuffer.new_bob_buffer channel116).add 0x11223344).position = 6 + 4 :=
  ⟨(new_bob_buffer_spec channel116).2.2.1,
    ((new_bob_buffer_spec channel116).2.2.2.1 (PixelBuffer.new_bob_buffer channel116)
      0x11223344 rfl (by decide)).1⟩

lemma renderSerialLoop_eq_gammaCorrectAll (gamma : GammaLookup) (colors : List ℕ)
    (buf : PixelBuffer) :
    renderSerialLoop gamma colors buf =
      (gammaCorrectAll gamma colors).map fun ws => ws.foldl PixelBuffer.add buf := by
  induction colors generalizing buf with
  | nil => rfl
  | cons pixel rest ih =>
    unfold renderSerialLoop gammaCorrectAll
    cases hp : gammaCorrectPixel gamma pixel with
    | none => rfl
    | some w =>
      dsimp only
      rw [ih]
      cases hr : gammaCorrectAll gamma rest <;> simp [List.foldl]

lemma gammaCorrectPixel_alpha (gamma : GammaLookup) (pixel w : ℕ)
    (h : gammaCorrectPixel gamma pixel = some w) : w &&& 0xFF = 0xFF := by
  unfold gammaCorrectPixel at h
  cases h1 : gamma.red ((pixel &&& 0xFF000000) >>> 24) <;> rw [h1] at h
  · simp at h
  cases h2 : gamma.green ((pixel &&& 0xFF0000) >>> 16) <;> rw [h2] at h
  · simp at h
  cases h3 : gamma.blue ((pixel &&& 0xFF00) >>> 8) <;> rw [h3] at h
  · simp at h
  simp only [Option.some.injEq] at h
  rw [← h]
  exact or_ff_and_ff _

lemma gammaCorrectAll_alpha (gamma : GammaLookup) :
    ∀ colors ws, gammaCorrectAll gamma colors = some ws →
      ∀ w ∈ ws, w &&& 0xFF = 0xFF := by
  intro colors
  induction colors with
  | nil =>
    intro ws h w hw
    simp only [gammaCorrectAll, Option.some.injEq] at h
    rw [← h] at hw
    simp at hw
  | cons pixel rest ih =>
    intro ws h w hw
    unfold gammaCorrectAll at h
    cases hp : gammaCorrectPixel gamma pixel <;> rw [hp] at h
    · simp at h
    cases hr : gammaCorrectAll gamma rest <;> rw [hr] at h
    · simp at h
    · simp only [Option.some.injEq] at h
      rw [← h] at hw
      rcases List.mem_cons.mp hw with hw | hw
      · rw [hw]
        exact gammaCorrectPixel_alpha gamma pixel _ hp
      · exact ih _ hr w hw

lemma clear_payload_zero (buf : PixelBuffer) :
    (buf.clear).buffer.drop buf.offset.length =
      List.replicate (buf.buffer.length - buf.offset.length) 0 := by
  unfold PixelBuffer.clear
  by_cases h : buf.buffer.length > buf.offset.length
  · rw [if_pos h]
    simp only
    have hlen : (buf.buffer.take buf.offset.length).length = buf.offset.length := by
      simp [List.length_take]
      omega
    nth_rewrite 1 [← hlen]
    exact List.drop_left _ _
  · rw [if_neg h]
    push_neg at h
    rw [List.drop_eq_nil_of_le h, show buf.buffer.length - buf.offset.length = 0 from by omega]
    rfl

/-- C7: `render_serial` (and `render_channel`) first clears the buffer;
it returns `false` exactly when resources are not acquired, in which
case the cleared buffer's payload is all zeroes; with resources
acquired it returns `true` after adding, in strand order, the
gamma-corrected previous colors, each packed with alpha byte `0xFF`. -/
theorem render_serial_spec (s : ScreenSamples) (buf : PixelBuffer) :
    (∀ result, s.render_serial buf = some result →
      (result.1 = false ↔ s.acquired_resources = false)) ∧
    (s.acquired_resources = false →
      s.render_serial buf = some (false, buf.clear) ∧
      (∀ channel : OpcChannel, s.render_channel channel buf = some (false, buf.clear)) ∧
      (buf.clear).buffer.drop buf.offset.length =
        List.replicate (buf.buffer.length - buf.offset.length) 0) ∧
    (s.acquired_resources = true →
      ∀ ws, gammaCorrectAll s.gamma s.previous_colors = some ws →
        s.render_serial buf = some (true, ws.foldl PixelBuffer.add buf.clear) ∧
        ∀ w ∈ ws, w &&& 0xFF = 0xFF) := by
  refine ⟨?_, ?_, ?_⟩
  · intro result hres
    unfold ScreenSamples.render_serial at hres
    by_cases ha : s.acquired_resources = false
    · rw [if_pos ha] at hres
      simp only [Option.some.injEq] at hres
      rw [← hres]
      simp [ha]
    · rw [if_neg ha] at hres
      cases hloop : renderSerialLoop s.gamma s.previous_colors buf.clear <;>
          rw [hloop] at hres
      · simp at hres
      · simp only [Option.map_some', Option.some.injEq] at hres
        rw [← hres]
        simp [ha]
  · intro ha
    refine ⟨?_, fun channel => ?_, clear_payload_zero buf⟩
    · unfold ScreenSamples.render_serial
      rw [if_pos ha]
    · unfold ScreenSamples.render_channel
      rw [if_pos ha]
  · intro ha ws hws
    constructor
    · unfold ScreenSamples.render_serial
      rw [if_neg (by simp [ha])]
      rw [renderSerialLoop_eq_gammaCorrectAll, hws]
      rfl
    · exact gammaCorrectAll_alpha s.gamma s.previous_colors ws hws

/-- Witness for C7: a one-LED state with a one-entry gamma table renders
`some (true, …)` through the theorem. -/
theorem render_serial_spec_witness :
    ScreenSamples.render_serial samplesGamma bufferSmall =
      some (true, ([0x070809FF] : List ℕ).foldl PixelBuffer.add bufferSmall.clear) :=
  ((render_serial_spec samplesGamma bufferSmall).2.2 rfl [0x070809FF] (by decide)).1

/-- C1 (code slip in `render_channel`): the smoothing guard
`pixel_index >= kernel_radius && pixel_index + kernel_radius < pixel_count`
is vacuously true when `kernel_radius = 0`, so the Gaussian branch runs
with an empty weight list and overwrites every pixel of such a range
with `0x00000000` instead of the sampled value `S[p]`.  Concretely: a
1-pixel range with one sample (`kernel_radius = 0`), a stored color
`0x11223344`, samples to `[0x11223344]` but the rendered OPC payload is
`[0, 0, 0]`. -/
theorem render_channel_zero_radius_discards_samples :
    rangeNoKernel.get_kernel_radius = 0 ∧
    rangeNoKernel.get_kernel_weights = [] ∧
    (∀ sampled_pixels : List ℕ, smoothPixel rangeNoKernel sampled_pixels 0 = 0) ∧
    ScreenSamples.sampledPixels samplesOneLed rangeNoKernel = some [0x11223344] ∧
    (ScreenSamples.render_channel samplesOneLed channelNoKernel
        (PixelBuffer.new_opc_buffer channelNoKernel)).map
        (fun result => (result.1, result.2.data)) =
      some (true, [0x01, 0x00, 0x00, 0x03, 0x00, 0x00, 0x00]) := by
  have hradius : rangeNoKernel.get_kernel_radius = 0 := by
    simp [rangeNoKernel, OpcPixelRange.fromJson, OpcPixelRange.get_kernel_radius]
  have hweights : rangeNoKernel.get_kernel_weights = [] := by
    simp [rangeNoKernel, OpcPixelRange.fromJson, OpcPixelRange.get_kernel_weights]
  have hpc : rangeNoKernel.pixel_count = 1 := by
    simp [rangeNoKernel, OpcPixelRange.fromJson]
  have hsmooth : ∀ sampled_pixels : List ℕ, smoothPixel rangeNoKernel sampled_pixels 0 = 0 := by
    intro sampled_pixels
    unfold smoothPixel
    rw [hradius, hweights, hpc]
    rw [if_pos ⟨le_refl 0, by norm_num⟩]
    simp [f64AsU32R]
  have hsample : ScreenSamples.sampledPixels samplesOneLed rangeNoKernel =
      some [0x11223344] := by decide
  have hpixels : channelNoKernel.pixels = [rangeNoKernel] := rfl
  refine ⟨hradius, hweights, hsmooth, hsample, ?_⟩
  unfold ScreenSamples.render_channel
  rw [if_neg (by decide)]
  rw [hpixels]
  unfold renderChannelRanges renderChannelRange
  rw [hsample]
  dsimp only
  rw [show List.range rangeNoKernel.pixel_count = [0] from by rw [hpc]; rfl]
  simp only [List.foldl]
  rw [hsmooth [0x11223344]]
  decide

lemma getD_set_real (l : List ℝ) (j i : ℕ) (v : ℝ) :
    (l.set j v).getD i 0 = if j = i ∧ j < l.length then v else l.getD i 0 := by
  induction l generalizing i j with
  | nil => simp [List.set]
  | cons a t ih =>
    cases j with
    | zero =>
      cases i with
      | zero => simp
      | succ m => simp [List.set]
    | succ n =>
      cases i with
      | zero => simp [List.set]
      | succ m =>
        simp only [List.set, List.getD_cons_succ, List.length_cons]
        rw [ih]
        by_cases hnm : n = m <;> simp [hnm]

lemma getD_replicate_zero (n i : ℕ) : (List.replicate n (0 : ℝ)).getD i 0 = 0 := by
  rw [List.getD_eq_getElem?_getD, List.getElem?_replicate]
  split <;> rfl

lemma sum_set_real (l : List ℝ) (i : ℕ) (v : ℝ) (h : i < l.length) :
    (l.set i v).sum = l.sum + v - l.getD i 0 := by
  induction l generalizing i with
  | nil => simp at h
  | cons a t ih =>
    cases i with
    | zero =>
      simp [List.set]
      ring
    | succ n =>
      simp only [List.set, List.sum_cons, List.getD_cons_succ]
      rw [ih n (by simpa using h)]
      ring

lemma map_div_sum (l : List ℝ) (c : ℝ) : (l.map fun x => x / c).sum = l.sum / c := by
  induction l with
  | nil => simp
  | cons a t ih =>
    simp only [List.map_cons, List.sum_cons, ih]
    ring

lemma kernelLoop_spec (radius : ℕ) :
    ∀ n, n ≤ radius →
      (kernelLoop radius n).1.length = 2 * radius + 1 ∧
      (∀ i, i ≤ 2 * radius →
        (kernelLoop radius n).1.getD i 0 =
          if i < n then kernelWeight radius i
          else if 2 * radius - i < n then kernelWeight radius (2 * radius - i)
          else if i = radius then 1 else 0) ∧
      (kernelLoop radius n).2 = (kernelLoop radius n).1.sum := by
  intro n
  induction n with
  | zero =>
    intro _
    refine ⟨by simp [kernelLoop], ?_, ?_⟩
    · intro i hi
      simp only [kernelLoop]
      rw [getD_set_real]
      simp only [List.length_replicate]
      by_cases hir : radius = i
      · rw [if_pos ⟨hir, by omega⟩]
        simp [← hir]
      · rw [if_neg (by tauto), getD_replicate_zero]
        simp [Ne.symm hir]
    · simp only [kernelLoop]
      rw [sum_set_real _ _ _ (by simp; omega), getD_replicate_zero]
      simp
  | succ n ih =>
    intro hn1
    have hn : n ≤ radius := by omega
    have hnr : n < radius := by omega
    obtain ⟨ihlen, ihget, ihsum⟩ := ih hn
    have hidx : 2 * radius + 1 - n - 1 = 2 * radius - n := by omega
    refine ⟨by simp [kernelLoop, ihlen], ?_, ?_⟩
    · intro i hi
      simp only [kernelLoop, hidx]
      rw [getD_set_real, getD_set_real]
      simp only [List.length_set, ihlen]
      by_cases h1 : 2 * radius - n = i
      · rw [if_pos ⟨h1, by omega⟩]
        rw [if_neg (by omega), if_pos (by omega)]
        rw [show 2 * radius - i = n from by omega]
      · rw [if_neg (by tauto)]
        by_cases h2 : n = i
        · have h2' : i < n + 1 := by omega
          rw [if_pos ⟨h2, by omega⟩, if_pos h2']
          rw [← h2]
        · rw [if_neg (by tauto), ihget i hi]
          by_cases h3 : i < n
          · have h3' : i < n + 1 := by omega
            rw [if_pos h3, if_pos h3']
          · have h3' : ¬ i < n + 1 := by omega
            rw [if_neg h3, if_neg h3']
            by_cases h4 : 2 * radius - i < n
            · have h4' : 2 * radius - i < n + 1 := by omega
              rw [if_pos h4, if_pos h4']
            · have h4' : ¬ 2 * radius - i < n + 1 := by omega
              rw [if_neg h4, if_neg h4']
    · simp only [kernelLoop, hidx]
      have hlen1 : ((kernelLoop radius n).1.set n (kernelWeight radius n)).length =
          2 * radius + 1 := by simp [ihlen]
      have hgd1 : (kernelLoop radius n).1.getD n 0 = 0 := by
        rw [ihget n (by omega)]
        rw [if_neg (by omega), if_neg (by omega), if_neg (by omega)]
      have hgd2 : ((kernelLoop radius n).1.set n (kernelWeight radius n)).getD
          (2 * radius - n) 0 = 0 := by
        rw [getD_set_real, if_neg (by omega), ihget (2 * radius - n) (by omega)]
        rw [if_neg (by omega), if_neg (by omega), if_neg (by omega)]
      rw [sum_set_real _ _ _ (by omega), sum_set_real _ _ _ (by omega)]
      rw [hgd1, hgd2, ihsum]
      ring

lemma kernelLoop_total_pos (radius : ℕ) : ∀ n, 0 < (kernelLoop radius n).2 := by
  intro n
  induction n with
  | zero => norm_num [kernelLoop]
  | succ m ih =>
    simp only [kernelLoop]
    have := Real.exp_pos (-(((m : ℝ) - (radius : ℝ)) * ((m : ℝ) - (radius : ℝ))) /
      (((radius * radius : ℕ) : ℝ) / 4.5))
    unfold kernelWeight
    positivity

/-- C6: a configuration-derived `OpcPixelRange` has
`kernel_radius = pixel_count / (2 * sample_count)`, a weight vector of
length `2 * kernel_radius + 1` that is symmetric about its midpoint and
sums to 1 within `2 * f64::EPSILON`, exactly when `sample_count > 1` and
`pixel_count ≥ 3 * sample_count`; otherwise `kernel_radius = 0` and the
weights are empty. -/
theorem kernel_weights_spec (pixelCount : ℕ) (displayIndex : List (List ℕ)) :
    (OpcPixelRange.fromJson pixelCount displayIndex).get_sample_count =
      (displayIndex.map List.length).sum ∧
    ((displayIndex.map List.length).sum > 1 ∧
        pixelCount ≥ 3 * (displayIndex.map List.length).sum →
      (OpcPixelRange.fromJson pixelCount displayIndex).get_kernel_radius =
        pixelCount / (2 * (displayIndex.map List.length).sum) ∧
      (OpcPixelRange.fromJson pixelCount displayIndex).get_kernel_weights.length =
        2 * (OpcPixelRange.fromJson pixelCount displayIndex).get_kernel_radius + 1 ∧
      (∀ i, i ≤ 2 * (OpcPixelRange.fromJson pixelCount displayIndex).get_kernel_radius →
        (OpcPixelRange.fromJson pixelCount displayIndex).get_kernel_weights.getD i 0 =
          (OpcPixelRange.fromJson pixelCount displayIndex).get_kernel_weights.getD
            (2 * (OpcPixelRange.fromJson pixelCount displayIndex).get_kernel_radius - i) 0) ∧
      |(OpcPixelRange.fromJson pixelCount displayIndex).get_kernel_weights.sum - 1| ≤
        2 * ((epsilonF64 : ℚ) : ℝ)) ∧
    (¬((displayIndex.map List.length).sum > 1 ∧
        pixelCount ≥ 3 * (displayIndex.map List.length).sum) →
      (OpcPixelRange.fromJson pixelCount displayIndex).get_kernel_radius = 0 ∧
      (OpcPixelRange.fromJson pixelCount displayIndex).get_kernel_weights = []) := by
  refine ⟨?_, ?_, ?_⟩
  · simp only [OpcPixelRange.fromJson, OpcPixelRange.get_sample_count]
    split <;> rfl
  · intro h
    have hrw : OpcPixelRange.fromJson pixelCount displayIndex =
        { pixel_count := pixelCount
          display_index := displayIndex
          sample_count := (displayIndex.map List.length).sum
          kernel_radius := pixelCount / (2 * (displayIndex.map List.length).sum)
          kernel_weights :=
            (kernelLoop (pixelCount / (2 * (displayIndex.map List.length).sum))
                (pixelCount / (2 * (displayIndex.map List.length).sum))).1.map
              fun weight =>
                weight / (kernelLoop (pixelCount / (2 * (displayIndex.map List.length).sum))
                  (pixelCount / (2 * (displayIndex.map List.length).sum))).2 } := by
      unfold OpcPixelRange.fromJson
      rw [if_pos h]
    set radius := pixelCount / (2 * (displayIndex.map List.length).sum) with hradius
    obtain ⟨hlen, hget, hsum⟩ := kernelLoop_spec radius radius (le_refl radius)
    have htotal := kernelLoop_total_pos radius radius
    rw [hrw]
    unfold OpcPixelRange.get_kernel_radius OpcPixelRange.get_kernel_weights
    simp only
    refine ⟨trivial, by simp [hlen], ?_, ?_⟩
    · intro i hi
      have hmap : ∀ j, j ≤ 2 * radius →
          ((kernelLoop radius radius).1.map
            (fun weight => weight / (kernelLoop radius radius).2)).getD j 0 =
          (kernelLoop radius radius).1.getD j 0 / (kernelLoop radius radius).2 := by
        intro j hj
        rw [List.getD_eq_getElem?_getD, List.getD_eq_getElem?_getD, List.getElem?_map]
        have hjlt : j < (kernelLoop radius radius).1.length := by omega
        rw [List.getElem?_eq_getElem hjlt]
        rfl
      rw [hmap i hi, hmap (2 * radius - i) (by omega)]
      rw [hget i hi, hget (2 * radius - i) (by omega)]
      congr 1
      by_cases h1 : i < radius
      · rw [if_pos h1, if_neg (by omega), if_pos (by omega),
          show 2 * radius - (2 * radius - i) = i from by omega]
      · by_cases h2 : i = radius
        · subst h2
          simp only [show 2 * radius - radius = radius from by omega]
        · have ha : 2 * radius - i < radius := by omega
          rw [if_neg h1, if_pos ha, if_pos ha]
    · rw [map_div_sum, ← hsum, div_self (ne_of_gt htotal)]
      simp only [sub_self, abs_zero, epsilonF64]
      norm_num
  · intro h
    unfold OpcPixelRange.fromJson
    rw [if_neg h]
    exact ⟨rfl, rfl⟩

/-- Witness for C6 at the sample configuration's 64-pixel range with 8
samples (`kernel_radius = 4`, 9 weights). -/
theorem kernel_weights_spec_witness :
    ((([[16, 15, 14, 13, 12, 11, 10, 9]] : List (List ℕ)).map List.length).sum > 1 ∧
      64 ≥ 3 * (([[16, 15, 14, 13, 12, 11, 10, 9]] : List (List ℕ)).map List.length).sum) ∧
    (OpcPixelRange.fromJson 64 [[16, 15, 14, 13, 12, 11, 10, 9]]).get_kernel_radius =
      64 / (2 * (([[16, 15, 14, 13, 12, 11, 10, 9]] : List (List ℕ)).map List.length).sum) ∧
    (OpcPixelRange.fromJson 64 [[16, 15, 14, 13, 12, 11, 10, 9]]).get_kernel_weights.length =
      2 * (OpcPixelRange.fromJson 64 [[16, 15, 14, 13, 12, 11, 10, 9]]).get_kernel_radius + 1 ∧
    (∀ i, i ≤ 2 * (OpcPixelRange.fromJson 64
        [[16, 15, 14, 13, 12, 11, 10, 9]]).get_kernel_radius →
      (OpcPixelRange.fromJson 64 [[16, 15, 14, 13, 12, 11, 10, 9]]).get_kernel_weights.getD
          i 0 =
        (OpcPixelRange.fromJson 64 [[16, 15, 14, 13, 12, 11, 10, 9]]).get_kernel_weights.getD
          (2 * (OpcPixelRange.fromJson 64
            [[16, 15, 14, 13, 12, 11, 10, 9]]).get_kernel_radius - i) 0) ∧
    |(OpcPixelRange.fromJson 64 [[16, 15, 14, 13, 12, 11, 10, 9]]).get_kernel_weights.sum - 1| ≤
      2 * ((epsilonF64 : ℚ) : ℝ) :=
  ⟨by decide, (kernel_weights_spec 64 [[16, 15, 14, 13, 12, 11, 10, 9]]).2.1 (by decide)⟩

end Adalight
